import Mathlib

/-!
# Verification of the SQL generation/validation pipeline

A shallow embedding of the core pipeline of the `ai-native-foundry`
repository: the syntax validator (`src/validation/syntax-validator.ts`),
the schema-conformance validator (`src/validation/schema-validator.ts`),
the EXPLAIN-plan analyzer (`src/integrations/snowflake/explain-analyzer.ts`),
the preview executor's LIMIT handling
(`src/integrations/snowflake/query-executor.ts`), and the JSON extraction
plus verdict merging of the generate route (`src/routes/v1/generate.ts`).

JavaScript strings are modelled as Lean `String`s; the handful of
JavaScript string primitives used by the code (`toUpperCase` restricted to
ASCII, `trim`, `includes`, `startsWith`, regex scans) are defined
explicitly below on `List Char` so that every validator is an executable
Lean function.
-/

namespace Foundry

/-! ## Model of the JavaScript string primitives used by the source -/

/-- ASCII fragment of JavaScript `String.prototype.toUpperCase`, per
character: the 26 lowercase ASCII letters map to their uppercase
counterparts, everything else is unchanged. -/
def asciiUpper (c : Char) : Char :=
  match c with
  | 'a' => 'A' | 'b' => 'B' | 'c' => 'C' | 'd' => 'D' | 'e' => 'E'
  | 'f' => 'F' | 'g' => 'G' | 'h' => 'H' | 'i' => 'I' | 'j' => 'J'
  | 'k' => 'K' | 'l' => 'L' | 'm' => 'M' | 'n' => 'N' | 'o' => 'O'
  | 'p' => 'P' | 'q' => 'Q' | 'r' => 'R' | 's' => 'S' | 't' => 'T'
  | 'u' => 'U' | 'v' => 'V' | 'w' => 'W' | 'x' => 'X' | 'y' => 'Y'
  | 'z' => 'Z'
  | c => c

/-- `s.toUpperCase()` on the character list. -/
def upperL (l : List Char) : List Char := l.map asciiUpper

/-- `s.toUpperCase()`. -/
def toUpperCase (s : String) : String := ⟨upperL s.data⟩

/-- The ASCII whitespace characters removed by JavaScript
`String.prototype.trim` (space, tab, line feed, carriage return,
vertical tab, form feed). -/
def isWsChar (c : Char) : Bool :=
  c == ' ' || c == '\t' || c == '\n' || c == '\r' || c == '\x0b' || c == '\x0c'

/-- `s.trim()` on the character list: drop whitespace from both ends. -/
def trimL (l : List Char) : List Char :=
  ((l.dropWhile isWsChar).reverse.dropWhile isWsChar).reverse

/-- `s.trim()`. -/
def jsTrim (s : String) : String := ⟨trimL s.data⟩

/-- Substring containment on character lists: `pat` occurs contiguously
somewhere in `l` (the semantics of JavaScript `String.prototype.includes`). -/
def containsL (pat : List Char) : List Char → Bool
  | [] => pat.isEmpty
  | c :: rest => pat.isPrefixOf (c :: rest) || containsL pat rest

/-- `s.includes(pat)`. -/
def jsIncludes (s pat : String) : Bool := containsL pat.data s.data

/-- `s.startsWith(pat)`. -/
def jsStartsWith (s pat : String) : Bool := pat.data.isPrefixOf s.data

/-! ## Syntax validator — `src/validation/syntax-validator.ts` -/

/-- The `ValidationResult` interface shared by the validators. -/
structure ValidationResult where
  isValid : Bool
  errors : List String
  warnings : List String
deriving Repr, DecidableEq

/-- The fixed deny-list of the syntax validator (`dangerousKeywords`). -/
def dangerousKeywords : List String :=
  ["DROP", "DELETE", "UPDATE", "INSERT", "TRUNCATE", "ALTER", "CREATE", "EXEC"]

/-- The error text pushed for a detected deny-listed keyword. -/
def dangerousMsg (keyword : String) : String :=
  "Dangerous keyword detected: " ++ keyword ++ ". Only SELECT queries are allowed."

/-- `validateSyntax` from `src/validation/syntax-validator.ts`: empty check
(early return), SELECT prefix, FROM presence, deny-listed keywords,
parenthesis balance, DISTINCT advisory. -/
def validateSyntax (sql : String) : ValidationResult :=
  if (trimL sql.data).isEmpty then
    { isValid := false, errors := ["SQL query cannot be empty"], warnings := [] }
  else
    let upperSQL := toUpperCase sql
    let startErr :=
      if jsStartsWith (jsTrim upperSQL) "SELECT" then [] else ["Query must start with SELECT"]
    let fromErr :=
      if jsIncludes upperSQL "FROM" then [] else ["Query must include FROM clause"]
    let keywordErrs :=
      (dangerousKeywords.filter (fun k => jsIncludes upperSQL k)).map dangerousMsg
    let openParens := sql.data.count '('
    let closeParens := sql.data.count ')'
    let parenErr :=
      if openParens ≠ closeParens then ["Unbalanced parentheses in query"] else []
    let warnings :=
      if jsIncludes upperSQL "DISTINCT" then []
      else ["Consider using DISTINCT to avoid duplicate records"]
    let errors := startErr ++ fromErr ++ keywordErrs ++ parenErr
    { isValid := errors.isEmpty, errors := errors, warnings := warnings }

/-! ## Schema conformance validator — `src/validation/schema-validator.ts` -/

/-- The character class `[A-Z_]` under the regex `i` flag: ASCII letters
(either case) and underscore. -/
def isIdChar (c : Char) : Bool :=
  ('A' ≤ c && c ≤ 'Z') || ('a' ≤ c && c ≤ 'z') || c == '_'

/-- Case-insensitive literal match: if `l` starts with `pat` up to ASCII
letter case, return the remainder of `l` after the matched characters. -/
def ciStrip : List Char → List Char → Option (List Char)
  | [], l => some l
  | _ :: _, [] => none
  | p :: ps, c :: cs => if asciiUpper c == asciiUpper p then ciStrip ps cs else none

/-- One attempted match of the regex `(?:FROM|JOIN)\s+([A-Z_]+)` (flag `i`)
anchored at the head of `l`: the keyword, case-insensitively, then one or
more whitespace characters (greedy), then one or more identifier
characters (greedy; the capture group). Returns the capture and the total
number of characters matched. Greediness is exact here because whitespace
and identifier characters are disjoint, so backtracking cannot produce a
different match. -/
def matchTableAt (l : List Char) : Option (List Char × Nat) :=
  match (ciStrip "FROM".data l).orElse (fun _ => ciStrip "JOIN".data l) with
  | none => none
  | some rest =>
    let ws := rest.takeWhile isWsChar
    if ws.isEmpty then none
    else
      let rest2 := rest.dropWhile isWsChar
      let ident := rest2.takeWhile isIdChar
      if ident.isEmpty then none
      else some (ident, 4 + ws.length + ident.length)

/-- Scanning engine for `scanTables`. The fuel argument makes the
length-based termination structural (every step strictly shortens the
list, so fuel at least the list length is never exhausted). -/
def scanTablesAux : Nat → List Char → List (List Char)
  | 0, _ => []
  | fuel + 1, l =>
    match l with
    | [] => []
    | c :: cs =>
      match matchTableAt (c :: cs) with
      | some (ident, n) => ident :: scanTablesAux fuel ((c :: cs).drop (max n 1))
      | none => scanTablesAux fuel cs

/-- `sql.matchAll(/(?:FROM|JOIN)\s+([A-Z_]+)/gi)`, collecting capture
group 1 of every match: scan left to right; after a match continue at the
end of the matched text (JavaScript `matchAll` advances `lastIndex` by the
match length, and by at least one character); on failure advance one
character. -/
def scanTables (l : List Char) : List (List Char) := scanTablesAux l.length l

/-- One attempted match of the regex `([A-Z_]+)\.([A-Z_]+)` (flag `i`)
anchored at the head of `l`: a maximal run of identifier characters, a
literal dot, then a second maximal run. Backtracking the greedy first
group cannot help: any shorter split leaves an identifier character where
the dot is required. -/
def matchFieldAt (l : List Char) : Option ((List Char × List Char) × Nat) :=
  let t := l.takeWhile isIdChar
  if t.isEmpty then none
  else
    match l.drop t.length with
    | '.' :: rest =>
      let f := rest.takeWhile isIdChar
      if f.isEmpty then none
      else some ((t, f), t.length + 1 + f.length)
    | _ => none

/-- Scanning engine for `scanFields`, with the same fuel discipline as
`scanTablesAux`. -/
def scanFieldsAux : Nat → List Char → List (List Char × List Char)
  | 0, _ => []
  | fuel + 1, l =>
    match l with
    | [] => []
    | c :: cs =>
      match matchFieldAt (c :: cs) with
      | some (tf, n) => tf :: scanFieldsAux fuel ((c :: cs).drop (max n 1))
      | none => scanFieldsAux fuel cs

/-- `sql.matchAll(/([A-Z_]+)\.([A-Z_]+)/gi)`, collecting the two capture
groups of every match, with the same scanning discipline as `scanTables`. -/
def scanFields (l : List Char) : List (List Char × List Char) := scanFieldsAux l.length l

/-- One table of a loaded schema document. `fields` is `none` when the
table object carries no `fields` property (the JavaScript truthiness
guard `table && table.fields`); otherwise it lists the field names in
insertion order — the validator only ever reads `Object.keys(table.fields)`. -/
structure TableDef where
  fields : Option (List String)
deriving Repr, DecidableEq

/-- A loaded schema document, the result of `loadSchema(schemaId)`:
table name → table definition, in insertion order. `Object.keys` order and
property access on `schema.tables` are modelled by the association list. -/
structure Schema where
  tables : List (String × TableDef)
deriving Repr, DecidableEq

/-- `Object.keys(schema.tables)` — the `validTables` local. -/
def validTables (schema : Schema) : List String := schema.tables.map Prod.fst

/-- The error text pushed for a table reference missing from the schema. -/
def invalidTableMsg (tableName : String) (valid : List String) : String :=
  "Invalid table: " ++ tableName ++ ". Valid tables: " ++ String.intercalate ", " valid

/-- The warning text pushed for a field not found in its table. -/
def unknownFieldMsg (fieldName tableName : String) : String :=
  "Field " ++ fieldName ++ " may not exist in table " ++ tableName

/-- The error accumulation of `validateAgainstSchema`: one error per table
match whose upper-cased capture is not among the upper-cased schema table
names, in match order, followed by the zero-tables check (the `usedTables`
set is empty exactly when there was no match at all). -/
def tableErrors (sql : String) (schema : Schema) : List String :=
  let vts := validTables schema
  let names := (scanTables sql.data).map (fun t => (⟨upperL t⟩ : String))
  let loopErrors := names.filterMap (fun tn =>
    if (vts.map toUpperCase).contains tn then none
    else some (invalidTableMsg tn vts))
  let noTables := if names.isEmpty then ["No valid tables found in query"] else []
  loopErrors ++ noTables

/-- The warning accumulation of `validateAgainstSchema`: for every
`table.field`-shaped match, upper-case both captures, look the table up by
exact key in `schema.tables`; when the table exists and has fields, a
field name missing from the (upper-cased) field keys yields a warning. -/
def fieldWarnings (sql : String) (schema : Schema) : List String :=
  (scanFields sql.data).filterMap (fun tf =>
    let tableName : String := ⟨upperL tf.1⟩
    let fieldName : String := ⟨upperL tf.2⟩
    match schema.tables.lookup tableName with
    | none => none
    | some table =>
      match table.fields with
      | none => none
      | some fields =>
        if (fields.map toUpperCase).contains fieldName then none
        else some (unknownFieldMsg fieldName tableName))

/-- `validateAgainstSchema` from `src/validation/schema-validator.ts`,
for a successfully resolved schema (loading the schema document from disk
is outside the modelled core; the surrounding catch corresponds to
`loadSchema` failure, the only throwing operation in the body). -/
def validateAgainstSchema (sql : String) (schema : Schema) : ValidationResult :=
  { isValid := (tableErrors sql schema).isEmpty,
    errors := tableErrors sql schema,
    warnings := fieldWarnings sql schema }

/-! ## Merged verdict — `src/routes/v1/generate.ts` lines 193–200 -/

/-- The validation merging performed by the generate route on the
candidate SQL: syntax validator first, then schema validator, combined by
boolean AND and list concatenation. -/
def routeValidation (sqlQuery : String) (schema : Schema) : ValidationResult :=
  let syntaxValidation := validateSyntax sqlQuery
  let schemaValidation := validateAgainstSchema sqlQuery schema
  { isValid := syntaxValidation.isValid && schemaValidation.isValid,
    errors := syntaxValidation.errors ++ schemaValidation.errors,
    warnings := syntaxValidation.warnings ++ schemaValidation.warnings }

/-! ## EXPLAIN analyzer — `src/integrations/snowflake/explain-analyzer.ts` -/

/-- The complexity classification of `ExplainAnalysis`. -/
inductive Complexity where
  | low
  | medium
  | high
deriving Repr, DecidableEq

/-- The `ExplainAnalysis` interface. Row counts are modelled as `Nat`:
the JavaScript numbers involved are the results of `parseInt` on digit
runs and comparisons against 10^5/10^6, all exact in double precision for
realistic plan text. -/
structure ExplainAnalysis where
  estimatedRows : Nat
  summary : String
  operations : List String
  complexity : Complexity
deriving Repr, DecidableEq

/-- `determineComplexity`: fixed precedence of thresholds and operation
combinations. -/
def determineComplexity (operations : List String) (estimatedRows : Nat) : Complexity :=
  if estimatedRows > 1000000 then .high
  else if operations.contains "Join" && operations.contains "Aggregate" then .high
  else if estimatedRows > 100000 then .medium
  else if operations.contains "Join" || operations.contains "Aggregate" then .medium
  else .low

/-- The fixed vocabulary scanned for by `extractOperations`. -/
def operationPatterns : List String :=
  ["TableScan", "Filter", "Join", "Aggregate", "Sort", "Limit", "Distinct", "Project", "GroupBy"]

/-- `extractOperations`: record every pattern occurring (case-sensitive
`String.prototype.includes`) in the plan text, in vocabulary order. -/
def extractOperations (planText : String) : List String :=
  operationPatterns.filter (fun op => jsIncludes planText op)

/-- Numeric value of a nonempty run of decimal digits (`parseInt(d, 10)`;
the digits having been captured by `(\d+)`, the result is never `NaN`). -/
def digitsToNat (ds : List Char) : Nat :=
  ds.foldl (fun n c => 10 * n + (c.toNat - 48)) 0

/-- One attempted match of a row-estimate pattern such as
`rows[=:]\s*(\d+)` (flag `i`) anchored at the head of `l`: the hint word
case-insensitively, one of `=`/`:`, any whitespace, then one or more
digits (the capture). Returns the captured value and the matched length. -/
def matchEstAt (word : List Char) (l : List Char) : Option (Nat × Nat) :=
  match ciStrip word l with
  | none => none
  | some rest =>
    match rest with
    | c :: rest2 =>
      if c == '=' || c == ':' then
        let ws := rest2.takeWhile isWsChar
        let rest3 := rest2.dropWhile isWsChar
        let ds := rest3.takeWhile Char.isDigit
        if ds.isEmpty then none
        else some (digitsToNat ds, word.length + 1 + ws.length + ds.length)
      else none
    | [] => none

/-- Scanning engine for `scanEstimates`, with the same fuel discipline as
`scanTablesAux`. -/
def scanEstimatesAux (word : List Char) : Nat → List Char → List Nat
  | 0, _ => []
  | fuel + 1, l =>
    match l with
    | [] => []
    | c :: cs =>
      match matchEstAt word (c :: cs) with
      | some (v, n) => v :: scanEstimatesAux word fuel ((c :: cs).drop (max n 1))
      | none => scanEstimatesAux word fuel cs

/-- `planText.matchAll` for one row-estimate pattern, collecting the
parsed captures with the same scanning discipline as `scanTables`. -/
def scanEstimates (word : List Char) (l : List Char) : List Nat :=
  scanEstimatesAux word l.length l

/-- `extractRowEstimates`: all three hint patterns are scanned over the
whole plan text, estimates accumulating in pattern order. -/
def extractRowEstimates (planText : String) : List Nat :=
  scanEstimates "rows".data planText.data
    ++ scanEstimates "cardinality".data planText.data
    ++ scanEstimates "output".data planText.data

/-- `Number.prototype.toLocaleString` for a nonnegative integer in the
default en-US locale: decimal digits in groups of three separated by
commas. The helper works on the reversed digit list. -/
def commaGroup : List Char → List Char
  | d1 :: d2 :: d3 :: d4 :: rest => d1 :: d2 :: d3 :: ',' :: commaGroup (d4 :: rest)
  | l => l

/-- See `commaGroup`. -/
def toLocaleString (n : Nat) : String :=
  ⟨(commaGroup (Nat.toDigits 10 n).reverse).reverse⟩

/-- One element of the `explainRows` array handed to `parseExplainOutput`.
`none` models a `null`/`undefined` element — reading a property of it
throws a `TypeError`, the representative way the try block can throw.
An object row is its properties (string-valued in this model). -/
def PlanRow := Option (List (String × String))

/-- `JSON.stringify(row)` for an object row of string-valued properties. -/
def jsStringify (kvs : List (String × String)) : String :=
  "\x7b" ++ String.intercalate ","
      (kvs.map (fun kv => "\"" ++ kv.1 ++ "\":\"" ++ kv.2 ++ "\"")) ++ "\x7d"

/-- The first truthy value among a JavaScript `||` chain whose operands
are (possibly absent) strings: an absent property or an empty string falls
through to the next operand. -/
def firstTruthy (o : Option String) (rest : Option String) : Option String :=
  match o with
  | some s => if s.isEmpty then rest else some s
  | none => rest

/-- `row['step'] || row['plan'] || row['PLAN'] || JSON.stringify(row)`,
throwing (`Except.error`) when the row itself is `null`. -/
def rowPlanText (row : PlanRow) : Except String String :=
  match row with
  | none => .error "TypeError: Cannot read properties of null"
  | some kvs =>
    .ok ((firstTruthy (kvs.lookup "step")
           (firstTruthy (kvs.lookup "plan")
             (firstTruthy (kvs.lookup "PLAN") none))).getD (jsStringify kvs))

/-- The try-block of `parseExplainOutput`: join the per-row plan text with
newlines, extract row estimates (`Math.max(...rowEstimates, 0)`),
extract operations, classify complexity, and build the summary. -/
def parseExplainCore (explainRows : List PlanRow) : Except String ExplainAnalysis := do
  let texts ← explainRows.mapM rowPlanText
  let planText := String.intercalate "\n" texts
  let rowEstimates := extractRowEstimates planText
  let estimatedRows := rowEstimates.foldl max 0
  let operations := extractOperations planText
  let complexity := determineComplexity operations estimatedRows
  return { estimatedRows := estimatedRows,
           summary := "Query will process approximately " ++ toLocaleString estimatedRows
             ++ " rows using " ++ toString operations.length ++ " operations",
           operations := operations,
           complexity := complexity }

/-- `parseExplainOutput`: the catch-all wrapper around `parseExplainCore`.
Any internal throw degrades to the fixed fallback analysis. The function
is total — no exception crosses this boundary. -/
def parseExplainOutput (explainRows : List PlanRow) : ExplainAnalysis :=
  match parseExplainCore explainRows with
  | .ok a => a
  | .error _ =>
    { estimatedRows := 0,
      summary := "Unable to analyze query plan",
      operations := [],
      complexity := .medium }

/-! ## Preview executor — `src/integrations/snowflake/query-executor.ts` -/

/-- The text actually executed by `previewQuery`: the trimmed input, with
a LIMIT clause appended when the upper-cased trimmed text does not contain
the substring `LIMIT`. -/
def previewSQLText (sql : String) (maxRows : Nat) : String :=
  let previewSQL := jsTrim sql
  if !(jsIncludes (toUpperCase previewSQL) "LIMIT") then
    previewSQL ++ " LIMIT " ++ toString maxRows
  else
    previewSQL

/-- Characters that can make up a SQL word (used only to delimit words in
the spec-side reading of a "row-limit clause"). -/
def isWordChar (c : Char) : Bool := isIdChar c || c.isDigit

/-- Whether the character just outside a keyword occurrence leaves the
keyword standing as its own word. -/
def boundaryOk : Option Char → Bool
  | none => true
  | some c => !isWordChar c

/-- The spec side of the preview claim, written from the spec's words "the
text has no explicit row-limit clause": the keyword LIMIT occurs in the
text, case-insensitively, as a standalone word (not embedded in a longer
identifier). -/
def hasRowLimitClause (sql : String) : Bool :=
  go none (upperL sql.data)
where
  go : Option Char → List Char → Bool
    | _, [] => false
    | prev, c :: rest =>
      (boundaryOk prev && "LIMIT".data.isPrefixOf (c :: rest)
        && boundaryOk ((c :: rest).drop 5).head?)
      || go (some c) rest

/-! ## JSON extraction — `src/routes/v1/generate.ts` lines 184–190

The route matches the model response against the regex `\{[\s\S]*\}`
(one `{`, a greedy any-character run, one `}`): the leftmost possible
start is the first `{` that still has a `}` somewhere after it, and
greediness stretches the match to the last `}` of the whole text. So a
match exists iff the first `{` of the text precedes its last `}`, and the
matched substring runs from that first `{` to that last `}`. The matched
substring is then handed to `JSON.parse`; the parser below embeds the
JSON grammar accepted by `JSON.parse` (numbers keep their lexeme — no
claim depends on numeric semantics). -/

/-- JSON values as produced by `JSON.parse`. -/
inductive Json where
  | null
  | bool (b : Bool)
  | num (lexeme : String)
  | str (s : String)
  | arr (elems : List Json)
  | obj (members : List (String × Json))

/-- JSON insignificant whitespace. -/
def isJsonWs (c : Char) : Bool := c == ' ' || c == '\t' || c == '\n' || c == '\r'

/-- Hexadecimal digit value. -/
def hexVal (c : Char) : Option Nat :=
  if '0' ≤ c ∧ c ≤ '9' then some (c.toNat - 48)
  else if 'a' ≤ c ∧ c ≤ 'f' then some (c.toNat - 87)
  else if 'A' ≤ c ∧ c ≤ 'F' then some (c.toNat - 55)
  else none

/-- Single-character JSON string escapes. -/
def escChar (c : Char) : Option Char :=
  match c with
  | '"' => some '"'
  | '\\' => some '\\'
  | '/' => some '/'
  | 'b' => some '\x08'
  | 'f' => some '\x0c'
  | 'n' => some '\n'
  | 'r' => some '\r'
  | 't' => some '\t'
  | _ => none

/-- Parse the body of a JSON string after the opening quote; returns the
decoded characters and the remainder after the closing quote. Raw control
characters are rejected; `\u` escapes decode through `Char.ofNat`. -/
def parseJString : List Char → Option (List Char × List Char)
  | [] => none
  | '"' :: rest => some ([], rest)
  | '\\' :: 'u' :: h1 :: h2 :: h3 :: h4 :: rest => do
    let a ← hexVal h1
    let b ← hexVal h2
    let c ← hexVal h3
    let d ← hexVal h4
    let (cs, r) ← parseJString rest
    return (Char.ofNat (((a * 16 + b) * 16 + c) * 16 + d) :: cs, r)
  | '\\' :: e :: rest => do
    let c ← escChar e
    let (cs, r) ← parseJString rest
    return (c :: cs, r)
  | c :: rest =>
    if c.toNat < 32 then none
    else do
      let (cs, r) ← parseJString rest
      return (c :: cs, r)

/-- Parse a JSON number lexeme: optional minus, integer part (`0` or a
nonzero-led digit run), optional fraction, optional exponent. Returns the
lexeme and the remainder. -/
def parseJNumber (l : List Char) : Option (List Char × List Char) :=
  let (sign, l1) :=
    match l with
    | '-' :: r => (['-'], r)
    | _ => (([] : List Char), l)
  match l1 with
  | [] => none
  | c :: r =>
    if c = '0' then
      let (frac, r2) := fracPart r
      match frac with
      | none => none
      | some fr =>
        match expPart r2 with
        | none => none
        | some (ex, r3) => some (sign ++ ['0'] ++ fr ++ ex, r3)
    else if c.isDigit then
      let ds := r.takeWhile Char.isDigit
      let r1 := r.dropWhile Char.isDigit
      let (frac, r2) := fracPart r1
      match frac with
      | none => none
      | some fr =>
        match expPart r2 with
        | none => none
        | some (ex, r3) => some (sign ++ (c :: ds) ++ fr ++ ex, r3)
    else none
where
  fracPart (l : List Char) : Option (List Char) × List Char :=
    match l with
    | '.' :: r =>
      let ds := r.takeWhile Char.isDigit
      if ds.isEmpty then (none, l) else (some ('.' :: ds), r.dropWhile Char.isDigit)
    | _ => (some [], l)
  expPart (l : List Char) : Option (List Char × List Char) :=
    match l with
    | 'e' :: r => expTail 'e' r
    | 'E' :: r => expTail 'E' r
    | _ => some ([], l)
  expTail (e : Char) (r : List Char) : Option (List Char × List Char) :=
    let (sg, r1) :=
      match r with
      | '+' :: rr => (['+'], rr)
      | '-' :: rr => (['-'], rr)
      | _ => (([] : List Char), r)
    let ds := r1.takeWhile Char.isDigit
    if ds.isEmpty then none else some (e :: sg ++ ds, r1.dropWhile Char.isDigit)

mutual

/-- Parse one JSON value (leading whitespace allowed); fuel bounds the
nesting recursion and is always sufficient for fuel larger than the input
length. -/
def parseValue : Nat → List Char → Option (Json × List Char)
  | 0, _ => none
  | fuel + 1, input =>
    match input.dropWhile isJsonWs with
    | 'n' :: 'u' :: 'l' :: 'l' :: rest => some (.null, rest)
    | 't' :: 'r' :: 'u' :: 'e' :: rest => some (.bool true, rest)
    | 'f' :: 'a' :: 'l' :: 's' :: 'e' :: rest => some (.bool false, rest)
    | '"' :: rest => do
      let (cs, r) ← parseJString rest
      return (.str ⟨cs⟩, r)
    | '\x7b' :: rest =>
      (match rest.dropWhile isJsonWs with
       | '\x7d' :: r2 => some (.obj [], r2)
       | _ => do
         let (ms, r) ← parseMembers fuel rest
         return (.obj ms, r))
    | '[' :: rest =>
      (match rest.dropWhile isJsonWs with
       | ']' :: r2 => some (.arr [], r2)
       | _ => do
         let (xs, r) ← parseElems fuel rest
         return (.arr xs, r))
    | l => do
      let (lex, r) ← parseJNumber l
      return (.num ⟨lex⟩, r)

/-- Parse one or more `"key": value` members followed by `}`. -/
def parseMembers : Nat → List Char → Option (List (String × Json) × List Char)
  | 0, _ => none
  | fuel + 1, input =>
    match input.dropWhile isJsonWs with
    | '"' :: rest => do
      let (k, r1) ← parseJString rest
      match r1.dropWhile isJsonWs with
      | ':' :: r2 => do
        let (v, r3) ← parseValue fuel r2
        match r3.dropWhile isJsonWs with
        | ',' :: r4 => do
          let (ms, r5) ← parseMembers fuel r4
          return ((⟨k⟩, v) :: ms, r5)
        | '\x7d' :: r4 => some ([(⟨k⟩, v)], r4)
        | _ => none
      | _ => none
    | _ => none

/-- Parse one or more array elements followed by `]`. -/
def parseElems : Nat → List Char → Option (List Json × List Char)
  | 0, _ => none
  | fuel + 1, input => do
    let (v, r) ← parseValue fuel input
    match r.dropWhile isJsonWs with
    | ',' :: r2 => do
      let (xs, r3) ← parseElems fuel r2
      return (v :: xs, r3)
    | ']' :: r2 => some ([v], r2)
    | _ => none

end

/-- `JSON.parse`: one JSON value spanning the whole text up to
insignificant whitespace. -/
def jsonParse (s : String) : Option Json := do
  let (v, rest) ← parseValue (s.length + 1) s.data
  if (rest.dropWhile isJsonWs).isEmpty then return v else none

/-- Index of the last occurrence of `c` in `l`. -/
def lastIdxOf (c : Char) (l : List Char) : Option Nat :=
  match l.reverse.findIdx? (· == c) with
  | none => none
  | some k => some (l.length - 1 - k)

/-- `responseText.match(/\{[\s\S]*\}/)`: the substring from the first `{`
to the last `}` of the text, when the former precedes the latter;
otherwise no match (see the section comment for why the greedy regex
reduces to exactly this span). -/
def extractJsonCandidate (text : String) : Option String :=
  match text.data.findIdx? (· == '\x7b'), lastIdxOf '\x7d' text.data with
  | some i, some j =>
    if i < j then some ⟨(text.data.drop i).take (j - i + 1)⟩ else none
  | _, _ => none

/-- The two throwing failure modes of the extraction code: `jsonMatch`
being `null`, and `JSON.parse` rejecting the matched substring. Both
abort generation for the request. -/
inductive AdapterError where
  | noJsonFound
  | malformedJson
deriving Repr, DecidableEq

/-- Lines 184–190 of the generate route: match the regex against the
response text (throwing when there is no match) and `JSON.parse` the
matched substring (throwing when it is malformed). -/
def adapterExtractParse (text : String) : Except AdapterError Json :=
  match extractJsonCandidate text with
  | none => .error .noJsonFound
  | some s =>
    match jsonParse s with
    | none => .error .malformedJson
    | some v => .ok v

/-- The claim side of C3, written from the spec's words: "extract the
first top-level `{...}` JSON object" — the substring starting at the
first `{` of the text and ending at the brace that closes it (tracking
nesting depth). -/
def firstTopLevelJsonObject (text : String) : Option String :=
  match text.data.dropWhile (· ≠ '\x7b') with
  | [] => none
  | l => (braceSpanAux l 0 []).map (fun cs => (⟨cs⟩ : String))
where
  braceSpanAux : List Char → Nat → List Char → Option (List Char)
    | [], _, _ => none
    | c :: rest, depth, acc =>
      if c == '\x7d' && depth == 1 then some (c :: acc).reverse
      else
        braceSpanAux rest
          (if c == '\x7b' then depth + 1 else if c == '\x7d' then depth - 1 else depth)
          (c :: acc)

/-! ## Supporting lemmas -/

lemma isWsChar_asciiUpper (c : Char) : isWsChar (asciiUpper c) = isWsChar c := by
  unfold asciiUpper
  split <;> rfl

lemma asciiUpper_beq_lparen (c : Char) : (asciiUpper c == '(') = (c == '(') := by
  unfold asciiUpper
  split <;> rfl

lemma asciiUpper_beq_rparen (c : Char) : (asciiUpper c == ')') = (c == ')') := by
  unfold asciiUpper
  split <;> rfl

lemma containsL_infix_iff (pat l : List Char) : containsL pat l = true ↔ pat <:+: l := by
  induction l with
  | nil => simp [containsL, List.isEmpty_iff, List.infix_nil]
  | cons c rest ih =>
    simp [containsL, Bool.or_eq_true, List.isPrefixOf_iff_prefix, ih, List.infix_cons_iff]

lemma trimL_eq_nil_iff (l : List Char) : trimL l = [] ↔ ∀ c ∈ l, isWsChar c := by
  unfold trimL
  rw [List.reverse_eq_nil_iff, List.dropWhile_eq_nil_iff]
  constructor
  · intro h c hc
    have hsplit := List.takeWhile_append_dropWhile (p := isWsChar) (l := l)
    rw [← hsplit] at hc
    rcases List.mem_append.mp hc with h1 | h2
    · exact List.mem_takeWhile_imp h1
    · exact h c (List.mem_reverse.mpr h2)
  · intro h c hc
    exact h c ((List.dropWhile_sublist isWsChar).mem (List.mem_reverse.mp hc))

lemma all_ws_upperL (l : List Char) :
    (∀ c ∈ upperL l, isWsChar c) ↔ ∀ c ∈ l, isWsChar c := by
  unfold upperL
  constructor
  · intro h c hc
    rw [← isWsChar_asciiUpper]
    exact h _ (List.mem_map_of_mem _ hc)
  · intro h c hc
    rcases List.mem_map.mp hc with ⟨d, hd, rfl⟩
    rw [isWsChar_asciiUpper]
    exact h d hd

lemma count_upperL (l : List Char) (p : Char)
    (hp : ∀ c, (asciiUpper c == p) = (c == p)) :
    (upperL l).count p = l.count p := by
  unfold upperL
  rw [List.count_eq_countP, List.countP_map, List.count_eq_countP]
  exact List.countP_congr (fun c _ => by simp [Function.comp, hp c])

lemma trimL_ne_nil_of_mem_nonws {l : List Char} {c : Char}
    (hc : c ∈ l) (hw : isWsChar c = false) : trimL l ≠ [] := by
  intro h
  have := (trimL_eq_nil_iff l).mp h c hc
  rw [this] at hw
  exact Bool.noConfusion hw

/-- The error list accumulated by the non-early-return branch of
`validateSyntax`, as its own definition for reasoning. -/
def syntaxChecksErrors (sql : String) : List String :=
  (if jsStartsWith (jsTrim (toUpperCase sql)) "SELECT" then []
    else ["Query must start with SELECT"])
  ++ (if jsIncludes (toUpperCase sql) "FROM" then []
    else ["Query must include FROM clause"])
  ++ ((dangerousKeywords.filter (fun k => jsIncludes (toUpperCase sql) k)).map dangerousMsg)
  ++ (if sql.data.count '(' ≠ sql.data.count ')' then
    ["Unbalanced parentheses in query"] else [])

lemma validateSyntax_errors_of_ne {sql : String} (h : ¬(trimL sql.data).isEmpty = true) :
    (validateSyntax sql).errors = syntaxChecksErrors sql := by
  unfold validateSyntax syntaxChecksErrors
  rw [if_neg h]

lemma validateSyntax_isValid_of_ne {sql : String} (h : ¬(trimL sql.data).isEmpty = true) :
    (validateSyntax sql).isValid = (syntaxChecksErrors sql).isEmpty := by
  unfold validateSyntax syntaxChecksErrors
  rw [if_neg h]

lemma dangerousMsg_injective : Function.Injective dangerousMsg := by
  intro a b h
  have h1 : ("Dangerous keyword detected: ".data ++ a.data)
        ++ ". Only SELECT queries are allowed.".data
      = ("Dangerous keyword detected: ".data ++ b.data)
        ++ ". Only SELECT queries are allowed.".data := congrArg String.data h
  have h2 := List.append_cancel_right h1
  have h3 := List.append_cancel_left h2
  have h4 : String.mk a.data = String.mk b.data := congrArg String.mk h3
  exact h4

lemma dangerousMsg_ne_start (k : String) :
    dangerousMsg k ≠ "Query must start with SELECT" := by
  intro h
  have hD : (dangerousMsg k).data.head? = some 'D' := rfl
  rw [h] at hD
  exact absurd hD (by decide)

lemma dangerousMsg_ne_from (k : String) :
    dangerousMsg k ≠ "Query must include FROM clause" := by
  intro h
  have hD : (dangerousMsg k).data.head? = some 'D' := rfl
  rw [h] at hD
  exact absurd hD (by decide)

lemma dangerousMsg_ne_paren (k : String) :
    dangerousMsg k ≠ "Unbalanced parentheses in query" := by
  intro h
  have hD : (dangerousMsg k).data.head? = some 'D' := rfl
  rw [h] at hD
  exact absurd hD (by decide)

lemma count_dangerousMsg_filter (U k : String) (hk : k ∈ dangerousKeywords)
    (hc : jsIncludes U k = true) :
    ((dangerousKeywords.filter (fun x => jsIncludes U x)).map dangerousMsg).count
      (dangerousMsg k) = 1 := by
  rw [List.count_map_of_injective _ _ dangerousMsg_injective,
    List.count_filter hc, List.count_eq_one_of_mem (by decide) hk]

lemma count_syntaxChecksErrors (sql k : String) (hk : k ∈ dangerousKeywords)
    (hc : jsIncludes (toUpperCase sql) k = true) :
    (syntaxChecksErrors sql).count (dangerousMsg k) = 1 := by
  unfold syntaxChecksErrors
  rw [List.count_append, List.count_append, List.count_append,
    count_dangerousMsg_filter _ _ hk hc]
  have c1 : (if jsStartsWith (jsTrim (toUpperCase sql)) "SELECT" then ([] : List String)
      else ["Query must start with SELECT"]).count (dangerousMsg k) = 0 := by
    split
    · rfl
    · simp [List.count_eq_zero, dangerousMsg_ne_start]
  have c2 : (if jsIncludes (toUpperCase sql) "FROM" then ([] : List String)
      else ["Query must include FROM clause"]).count (dangerousMsg k) = 0 := by
    split
    · rfl
    · simp [List.count_eq_zero, dangerousMsg_ne_from]
  have c4 : (if sql.data.count '(' ≠ sql.data.count ')' then
      ["Unbalanced parentheses in query"] else ([] : List String)).count
        (dangerousMsg k) = 0 := by
    split
    · simp [List.count_eq_zero, dangerousMsg_ne_paren]
    · rfl
  rw [c1, c2, c4]

/-! ## The claims -/

/-- C1: for every SQL text containing a deny-listed keyword, in any case
or position, `validateSyntax` reports `isValid = false`; the error naming
that keyword appears exactly once in the error list (the validator detects
presence per keyword), and errors for distinct keywords are distinct
entries. -/
theorem validateSyntax_denylist (sql k : String) (hk : k ∈ dangerousKeywords)
    (hc : jsIncludes (toUpperCase sql) k = true) :
    (validateSyntax sql).isValid = false ∧
    (validateSyntax sql).errors.count (dangerousMsg k) = 1 ∧
    (∀ k2 ∈ dangerousKeywords, k2 ≠ k → dangerousMsg k2 ≠ dangerousMsg k) := by
  have hcL : containsL k.data (upperL sql.data) = true := hc
  have hinf := (containsL_infix_iff _ _).mp hcL
  have hex : ∃ c ∈ k.data, isWsChar c = false := by
    fin_cases hk <;> decide
  obtain ⟨c, hck, hw⟩ := hex
  obtain ⟨d, hd, hdu⟩ := List.mem_map.mp (hinf.subset hck)
  have hwd : isWsChar d = false := by
    rw [← isWsChar_asciiUpper d, hdu]
    exact hw
  have hne : ¬(trimL sql.data).isEmpty = true := by
    simpa [List.isEmpty_iff] using trimL_ne_nil_of_mem_nonws hd hwd
  refine ⟨?_, ?_, fun k2 _ hne2 heq => hne2 (dangerousMsg_injective heq)⟩
  · rw [validateSyntax_isValid_of_ne hne]
    have hmem : dangerousMsg k ∈ syntaxChecksErrors sql :=
      List.count_pos_iff.mp (by rw [count_syntaxChecksErrors sql k hk hc]; omega)
    simpa [List.isEmpty_iff] using List.ne_nil_of_mem hmem
  · rw [validateSyntax_errors_of_ne hne]
    exact count_syntaxChecksErrors sql k hk hc

/-- Witness for C1 at a concrete input. -/
theorem validateSyntax_denylist_witness :
    (validateSyntax "select * from t; drop table t").isValid = false ∧
    (validateSyntax "select * from t; drop table t").errors.count (dangerousMsg "DROP") = 1 ∧
    (∀ k2 ∈ dangerousKeywords, k2 ≠ "DROP" → dangerousMsg k2 ≠ dangerousMsg "DROP") :=
  validateSyntax_denylist "select * from t; drop table t" "DROP" (by decide) (by decide)

/-- C9: unequal parenthesis counts always produce the unbalanced-parens
error; and balanced, SELECT-prefixed, FROM-bearing SQL with no deny-listed
keyword passes this validator. -/
theorem validateSyntax_parens (sql : String) :
    (sql.data.count '(' ≠ sql.data.count ')' →
      "Unbalanced parentheses in query" ∈ (validateSyntax sql).errors) ∧
    (sql.data.count '(' = sql.data.count ')' →
      jsStartsWith (jsTrim (toUpperCase sql)) "SELECT" = true →
      jsIncludes (toUpperCase sql) "FROM" = true →
      (∀ k ∈ dangerousKeywords, jsIncludes (toUpperCase sql) k = false) →
      (validateSyntax sql).isValid = true) := by
  constructor
  · intro h
    have hmemp : '(' ∈ sql.data ∨ ')' ∈ sql.data := by
      by_contra hno
      push_neg at hno
      have h1 : sql.data.count '(' = 0 := List.count_eq_zero.mpr hno.1
      have h2 : sql.data.count ')' = 0 := List.count_eq_zero.mpr hno.2
      omega
    have hne : ¬(trimL sql.data).isEmpty = true := by
      rcases hmemp with hm | hm
      · simpa [List.isEmpty_iff] using trimL_ne_nil_of_mem_nonws hm (by decide)
      · simpa [List.isEmpty_iff] using trimL_ne_nil_of_mem_nonws hm (by decide)
    rw [validateSyntax_errors_of_ne hne]
    simp [syntaxChecksErrors, List.mem_append, h]
  · intro h1 h2 h3 h4
    have hpr := List.isPrefixOf_iff_prefix.mp h2
    have hneU : trimL (upperL sql.data) ≠ [] := by
      intro hnil
      have : ("SELECT".data : List Char) = [] := by
        have hpr' : ("SELECT".data : List Char) <+: trimL (upperL sql.data) := hpr
        rw [hnil] at hpr'
        exact List.prefix_nil.mp hpr'
      exact absurd this (by decide)
    have hne : ¬(trimL sql.data).isEmpty = true := by
      rw [List.isEmpty_iff]
      intro hnil
      apply hneU
      rw [trimL_eq_nil_iff]
      exact (all_ws_upperL _).mpr ((trimL_eq_nil_iff _).mp hnil)
    rw [validateSyntax_isValid_of_ne hne]
    have hf : dangerousKeywords.filter (fun k => jsIncludes (toUpperCase sql) k) = [] := by
      apply List.filter_eq_nil_iff.mpr
      intro a ha
      rw [h4 a ha]
      simp
    simp [syntaxChecksErrors, h1, h2, h3, hf]

/-- Witness for C9 at concrete inputs. -/
theorem validateSyntax_parens_witness :
    "Unbalanced parentheses in query" ∈ (validateSyntax "((").errors ∧
    (validateSyntax "SELECT DISTINCT a FROM t WHERE (a = 1)").isValid = true :=
  ⟨(validateSyntax_parens "((").1 (by decide),
   (validateSyntax_parens "SELECT DISTINCT a FROM t WHERE (a = 1)").2
     (by decide) (by decide) (by decide) (by decide)⟩

/-- C10: `validateSyntax` is invariant under ASCII letter-case changes of
its input: two texts whose characters agree up to ASCII case (equivalently,
with equal ASCII upper-casings) get identical verdicts, because every
keyword check runs on the upper-cased text and the emptiness and
parenthesis checks are case-independent. -/
theorem validateSyntax_case_insensitive (s1 s2 : String)
    (h : upperL s1.data = upperL s2.data) :
    validateSyntax s1 = validateSyntax s2 := by
  have hU : toUpperCase s1 = toUpperCase s2 := congrArg String.mk h
  have key : trimL s1.data = [] ↔ trimL s2.data = [] := by
    rw [trimL_eq_nil_iff, trimL_eq_nil_iff, ← all_ws_upperL, h, all_ws_upperL]
  have hp1 : s1.data.count '(' = s2.data.count '(' := by
    rw [← count_upperL s1.data '(' asciiUpper_beq_lparen,
      ← count_upperL s2.data '(' asciiUpper_beq_lparen, h]
  have hp2 : s1.data.count ')' = s2.data.count ')' := by
    rw [← count_upperL s1.data ')' asciiUpper_beq_rparen,
      ← count_upperL s2.data ')' asciiUpper_beq_rparen, h]
  by_cases hE : trimL s1.data = []
  · have hE2 : trimL s2.data = [] := key.mp hE
    unfold validateSyntax
    rw [if_pos (List.isEmpty_iff.mpr hE), if_pos (List.isEmpty_iff.mpr hE2)]
  · have hE2 : trimL s2.data ≠ [] := fun hh => hE (key.mpr hh)
    unfold validateSyntax
    rw [if_neg (by simpa [List.isEmpty_iff] using hE),
      if_neg (by simpa [List.isEmpty_iff] using hE2), hU, hp1, hp2]

/-- Witness for C10 at a concrete pair of inputs. -/
theorem validateSyntax_case_insensitive_witness :
    validateSyntax "select distinct A from T" = validateSyntax "SELECT DISTINCT a FROM t" :=
  validateSyntax_case_insensitive "select distinct A from T" "SELECT DISTINCT a FROM t"
    (by decide)

/-- C2: the generate route's merged verdict is the boolean AND of the two
validators' flags, and its error and warning lists are the concatenations
of the validators' lists, syntax validator first, then schema validator. -/
theorem routeValidation_merge (sql : String) (schema : Schema) :
    (routeValidation sql schema).isValid
        = ((validateSyntax sql).isValid && (validateAgainstSchema sql schema).isValid) ∧
    (routeValidation sql schema).errors
        = (validateSyntax sql).errors ++ (validateAgainstSchema sql schema).errors ∧
    (routeValidation sql schema).warnings
        = (validateSyntax sql).warnings ++ (validateAgainstSchema sql schema).warnings :=
  ⟨rfl, rfl, rfl⟩

/-- C4: `determineComplexity` follows the fixed precedence — huge row
counts dominate, then the join-and-aggregate combination, then large row
counts, then join-or-aggregate, otherwise low — including the four
concrete classifications named by the spec. -/
theorem determineComplexity_precedence :
    (∀ (ops : List String) (rows : Nat), 1000000 < rows →
      determineComplexity ops rows = .high) ∧
    (∀ (ops : List String) (rows : Nat), rows ≤ 1000000 →
      "Join" ∈ ops → "Aggregate" ∈ ops → determineComplexity ops rows = .high) ∧
    (∀ (ops : List String) (rows : Nat), rows ≤ 1000000 →
      ¬("Join" ∈ ops ∧ "Aggregate" ∈ ops) → 100000 < rows →
      determineComplexity ops rows = .medium) ∧
    (∀ (ops : List String) (rows : Nat), rows ≤ 100000 →
      ¬("Join" ∈ ops ∧ "Aggregate" ∈ ops) → ("Join" ∈ ops ∨ "Aggregate" ∈ ops) →
      determineComplexity ops rows = .medium) ∧
    (∀ (ops : List String) (rows : Nat), rows ≤ 100000 →
      "Join" ∉ ops → "Aggregate" ∉ ops → determineComplexity ops rows = .low) ∧
    determineComplexity [] 1500000 = .high ∧
    determineComplexity ["Join", "Aggregate"] 50000 = .high ∧
    determineComplexity ["Filter"] 150000 = .medium ∧
    determineComplexity ["Filter"] 500 = .low := by
  refine ⟨?_, ?_, ?_, ?_, ?_, by decide, by decide, by decide, by decide⟩
  · intro ops rows h
    unfold determineComplexity
    rw [if_pos h]
  · intro ops rows h hj ha
    unfold determineComplexity
    rw [if_neg (by omega), if_pos (by simp [List.contains, List.elem_eq_mem, hj, ha])]
  · intro ops rows h hja h2
    unfold determineComplexity
    rw [if_neg (by omega), if_neg (by simpa [List.contains, List.elem_eq_mem, not_and] using hja),
      if_pos h2]
  · intro ops rows h hja hor
    unfold determineComplexity
    rw [if_neg (by omega), if_neg (by simpa [List.contains, List.elem_eq_mem, not_and] using hja),
      if_neg (by omega), if_pos (by simpa [List.contains, List.elem_eq_mem] using hor)]
  · intro ops rows h hj ha
    unfold determineComplexity
    rw [if_neg (by omega), if_neg (by simp [List.contains, List.elem_eq_mem, hj, ha]),
      if_neg (by omega), if_neg (by simp [List.contains, List.elem_eq_mem, hj, ha])]

/-- Witness for C4 at concrete inputs. -/
theorem determineComplexity_precedence_witness :
    determineComplexity ["Filter"] 2000000 = .high :=
  determineComplexity_precedence.1 ["Filter"] 2000000 (by decide)

/-- C5: `parseExplainOutput` never lets an exception cross its boundary
(it is a total function into `ExplainAnalysis`); whenever its inner
parsing throws, it returns exactly the fallback analysis: zero estimated
rows, the explanatory summary, no operations, and medium complexity. -/
theorem parseExplainOutput_degrades (rows : List PlanRow) (e : String)
    (h : parseExplainCore rows = .error e) :
    parseExplainOutput rows =
      { estimatedRows := 0,
        summary := "Unable to analyze query plan",
        operations := [],
        complexity := .medium } := by
  unfold parseExplainOutput
  rw [h]

/-- Witness for C5 at a concrete malformed input (a `null` plan row). -/
theorem parseExplainOutput_degrades_witness :
    parseExplainOutput [(none : PlanRow)] =
      { estimatedRows := 0,
        summary := "Unable to analyze query plan",
        operations := [],
        complexity := .medium } :=
  parseExplainOutput_degrades [(none : PlanRow)]
    "TypeError: Cannot read properties of null" rfl

/-- C6: any table identifier captured after a FROM or JOIN keyword whose
upper-casing is not among the schema's upper-cased table names makes
`validateAgainstSchema` invalid, with an error naming the (upper-cased)
table and listing all of the schema's valid tables. -/
theorem validateAgainstSchema_invalid_table (schema : Schema) (sql : String) (t : List Char)
    (ht : t ∈ scanTables sql.data)
    (hbad : ((validTables schema).map toUpperCase).contains (⟨upperL t⟩ : String) = false) :
    (validateAgainstSchema sql schema).isValid = false ∧
    invalidTableMsg (⟨upperL t⟩ : String) (validTables schema)
      ∈ (validateAgainstSchema sql schema).errors := by
  have hmem : invalidTableMsg (⟨upperL t⟩ : String) (validTables schema)
      ∈ tableErrors sql schema := by
    unfold tableErrors
    apply List.mem_append_left
    apply List.mem_filterMap.mpr
    refine ⟨(⟨upperL t⟩ : String), List.mem_map_of_mem _ ht, ?_⟩
    rw [if_neg (by rw [hbad]; exact Bool.false_ne_true)]
  constructor
  · unfold validateAgainstSchema
    simpa [List.isEmpty_iff] using List.ne_nil_of_mem hmem
  · exact hmem

/-- Witness for C6 at a concrete schema and SQL text. -/
theorem validateAgainstSchema_invalid_table_witness :
    (validateAgainstSchema "SELECT * FROM customers"
      ⟨[("DATA", ⟨some ["AGE"]⟩)]⟩).isValid = false ∧
    invalidTableMsg "CUSTOMERS" (validTables ⟨[("DATA", ⟨some ["AGE"]⟩)]⟩)
      ∈ (validateAgainstSchema "SELECT * FROM customers"
        ⟨[("DATA", ⟨some ["AGE"]⟩)]⟩).errors :=
  validateAgainstSchema_invalid_table ⟨[("DATA", ⟨some ["AGE"]⟩)]⟩
    "SELECT * FROM customers" "customers".data (by decide) (by decide)

/-- C7: a `table.field`-shaped token whose (upper-cased) table is a key of
the schema but whose field is not among that table's upper-cased field
names contributes a warning naming the field — never an error: the error
list of the verdict is exactly the table-phase errors, and validity
depends only on those. -/
theorem validateAgainstSchema_unknown_field (schema : Schema) (sql : String)
    (tf : List Char × List Char) (table : TableDef) (fields : List String)
    (htf : tf ∈ scanFields sql.data)
    (hT : schema.tables.lookup (⟨upperL tf.1⟩ : String) = some table)
    (hF : table.fields = some fields)
    (hbad : (fields.map toUpperCase).contains (⟨upperL tf.2⟩ : String) = false) :
    unknownFieldMsg (⟨upperL tf.2⟩ : String) (⟨upperL tf.1⟩ : String)
      ∈ (validateAgainstSchema sql schema).warnings ∧
    (validateAgainstSchema sql schema).errors = tableErrors sql schema ∧
    (validateAgainstSchema sql schema).isValid = (tableErrors sql schema).isEmpty := by
  refine ⟨?_, rfl, rfl⟩
  show unknownFieldMsg (⟨upperL tf.2⟩ : String) (⟨upperL tf.1⟩ : String)
      ∈ fieldWarnings sql schema
  unfold fieldWarnings
  apply List.mem_filterMap.mpr
  refine ⟨tf, htf, ?_⟩
  simp only [hT, hF]
  rw [if_neg (by rw [hbad]; exact Bool.false_ne_true)]

/-- Witness for C7 at a concrete schema and SQL text: the field mismatch
alone leaves the verdict valid, with the warning present. -/
theorem validateAgainstSchema_unknown_field_witness :
    unknownFieldMsg "FOO" "DATA"
      ∈ (validateAgainstSchema "SELECT DATA.FOO FROM DATA"
        ⟨[("DATA", ⟨some ["AGE", "STATE"]⟩)]⟩).warnings ∧
    (validateAgainstSchema "SELECT DATA.FOO FROM DATA"
      ⟨[("DATA", ⟨some ["AGE", "STATE"]⟩)]⟩).isValid = true :=
  ⟨(validateAgainstSchema_unknown_field ⟨[("DATA", ⟨some ["AGE", "STATE"]⟩)]⟩
      "SELECT DATA.FOO FROM DATA" ("DATA".data, "FOO".data) ⟨some ["AGE", "STATE"]⟩
      ["AGE", "STATE"] (by decide) (by decide) rfl (by decide)).1,
   by decide⟩

/-- C8 counterexample: a text with no row-limit clause whose upper-casing
nevertheless contains the substring LIMIT (inside the identifier
DELIMITED_FLAG) is executed unchanged — no LIMIT clause is appended,
contradicting the claim that every text without an explicit row-limit
clause gets one appended. -/
theorem previewSQLText_counterexample :
    hasRowLimitClause "SELECT DELIMITED_FLAG FROM T" = false ∧
    previewSQLText "SELECT DELIMITED_FLAG FROM T" 100 = "SELECT DELIMITED_FLAG FROM T" ∧
    previewSQLText "SELECT DELIMITED_FLAG FROM T" 100
      ≠ "SELECT DELIMITED_FLAG FROM T LIMIT 100" := by
  refine ⟨by decide, by decide, by decide⟩

/-- C8 amended: `previewQuery` executes the trimmed text unchanged when
its upper-casing contains the substring LIMIT anywhere, and otherwise
executes the trimmed text with a LIMIT clause for the requested maximum
appended. -/
theorem previewSQLText_spec (sql : String) (maxRows : Nat) :
    previewSQLText sql maxRows =
      if jsIncludes (toUpperCase (jsTrim sql)) "LIMIT" then jsTrim sql
      else jsTrim sql ++ " LIMIT " ++ toString maxRows := by
  unfold previewSQLText
  by_cases h : jsIncludes (toUpperCase (jsTrim sql)) "LIMIT" <;> simp [h]

/-- C3 counterexample: for a response containing two top-level JSON
objects, the first top-level object is well-formed JSON, yet the route's
regex grabs the span from the first opening brace to the last closing
brace, which is malformed — the adapter fails where the claim demands the
first object be extracted and parsed. -/
theorem adapterExtractParse_counterexample :
    firstTopLevelJsonObject "Here you go: \x7b\"a\": 1\x7d and also \x7b\"b\": 2\x7d"
      = some "\x7b\"a\": 1\x7d" ∧
    (jsonParse "\x7b\"a\": 1\x7d").isSome = true ∧
    extractJsonCandidate "Here you go: \x7b\"a\": 1\x7d and also \x7b\"b\": 2\x7d"
      = some "\x7b\"a\": 1\x7d and also \x7b\"b\": 2\x7d" ∧
    adapterExtractParse "Here you go: \x7b\"a\": 1\x7d and also \x7b\"b\": 2\x7d"
      = .error .malformedJson := by
  refine ⟨rfl, rfl, rfl, rfl⟩

/-- C3 amended: the adapter extracts the substring spanning from the first
opening brace to the last closing brace of the response text; when no such
span exists, or the span is malformed JSON, generation fails with a parse
error — never a partial result; a well-formed span parses fully. -/
theorem adapterExtractParse_spec (text : String) :
    (extractJsonCandidate text = none →
      adapterExtractParse text = .error .noJsonFound) ∧
    (∀ s, extractJsonCandidate text = some s → jsonParse s = none →
      adapterExtractParse text = .error .malformedJson) ∧
    (∀ s v, extractJsonCandidate text = some s → jsonParse s = some v →
      adapterExtractParse text = .ok v) := by
  unfold adapterExtractParse
  refine ⟨fun h => by rw [h], fun s h hp => by simp [h, hp], fun s v h hp => by simp [h, hp]⟩

/-- Witness for C3's amended theorem at concrete inputs. -/
theorem adapterExtractParse_spec_witness :
    adapterExtractParse "no json here" = .error .noJsonFound ∧
    adapterExtractParse "ok: \x7b\"sqlQuery\": \"SELECT 1\"\x7d"
      = .ok (.obj [("sqlQuery", .str "SELECT 1")]) :=
  ⟨(adapterExtractParse_spec "no json here").1 rfl,
   (adapterExtractParse_spec "ok: \x7b\"sqlQuery\": \"SELECT 1\"\x7d").2.2
     "\x7b\"sqlQuery\": \"SELECT 1\"\x7d" (.obj [("sqlQuery", .str "SELECT 1")]) rfl rfl⟩

end Foundry




